import Mathlib

/-!
# Verification of the mneme command-execution engine

Shallow embedding of the mneme event-sourcing runtime (Rust), covering:

* `src/delay.rs` — `RetryDelay::calculate_delay` (exponential backoff with
  full jitter, thread-local RNG seeded with the constant 0);
* `src/store/mod.rs` — the `execute` retry loop (read / fold / decide /
  append with optimistic-concurrency retries);
* `src/error.rs` — the `Error` enum;
* `src/kurrent_adapter.rs` — `Kurrent::publish`.

Machine integers (`u64`, `u32`) are modelled as `Nat`; where Rust overflow
semantics matter (release-mode wrapping arithmetic in `calculate_delay`)
the reduction modulo `2^64` is written explicitly.  Side effects are made
explicit: the event store is a value of an abstract state type threaded
through `publish`, the jitter RNG is an abstract generator state threaded
through the loop, and each loop iteration is logged in a trace record so
that per-attempt properties can be stated.
-/

/-- Word size of `u64`: values wrap modulo this constant. -/
def U64MOD : Nat := 2 ^ 64

/-- `2u64.pow r` under Rust release-mode (wrapping) overflow semantics. -/
def pow2u64 (r : Nat) : Nat := 2 ^ r % U64MOD

/-- `EventStreamId` (src/kurrent_adapter/stream.rs): a wrapper around a
UUID; we model the UUID by the string it displays as. -/
structure EventStreamId where
  uuid : String
deriving DecidableEq, Repr

/-- `Display`/`to_string()` for `EventStreamId` writes the UUID. -/
def EventStreamId.render (id : EventStreamId) : String := id.uuid

/-- `eventstore::Error`, restricted to the shapes the engine inspects:
`ResourceNotFound` is matched explicitly in `execute`; everything else is
collapsed into `other`. -/
inductive EsError where
  | resourceNotFound
  | other (msg : String)
deriving DecidableEq, Repr

/-- `eventstore::ExpectedRevision`. -/
inductive ExpectedRevision where
  | any
  | noStream
  | streamExists
  | exact (v : Nat)
deriving DecidableEq, Repr

/-- `eventstore::AppendToStreamOptions` (the part the engine sets). -/
structure AppendToStreamOptions where
  expectedRevision : ExpectedRevision
deriving DecidableEq, Repr

/-- `AppendToStreamOptions::default()`: expected revision `Any`
(no precondition). -/
def appendToStreamOptionsDefault : AppendToStreamOptions :=
  { expectedRevision := ExpectedRevision.any }

/-- `options.expected_revision(r)` builder. -/
def AppendToStreamOptions.withExpectedRevision
    (o : AppendToStreamOptions) (r : ExpectedRevision) : AppendToStreamOptions :=
  { o with expectedRevision := r }

/-- `mneme::Error` (src/error.rs), parameterized by the domain error type
`D` carried by `CommandFailed` (`Box<dyn Error>` in Rust).  Event-stream
versions are modelled as `Nat`. -/
inductive Error (D : Type) where
  | eventStoreSettings (msg : String)
  | eventDeserializationError (msg : String)
  | eventStoreStreamNotFound (id : EventStreamId)
  | eventStoreVersionMismatch (stream : EventStreamId)
      (expected actual : Option Nat) (source : EsError)
  | eventStoreOther (source : EsError)
  | commandFailed (message : String) (attempt : Nat) (maxAttempts : Nat) (source : D)
  | maxRetriesExceeded (stream : String) (maxRetries : Nat)
  | invalidConfig (message : String) (parameter : Option String)
deriving DecidableEq, Repr

/-- The shape `Error::EventStoreVersionMismatch { .. }` that the `execute`
loop retries on. -/
def Error.isVersionMismatch {D : Type} : Error D → Bool
  | Error.eventStoreVersionMismatch _ _ _ _ => true
  | _ => false

deriving instance DecidableEq for Except

/-- A `Result<(), Error>` is a version mismatch when it is `Err` with that
shape. -/
def resultIsVersionMismatch {D : Type} : Except (Error D) Unit → Bool
  | Except.error e => e.isVersionMismatch
  | Except.ok _ => false

/-! ## Retry delay (src/delay.rs) -/

/-- `RetryDelay`: backoff configuration (`u64` fields modelled as `Nat`). -/
structure RetryDelay where
  baseDelayMs : Nat
  maxDelayMs : Nat
deriving DecidableEq, Repr

/-- `RetryDelay::default()`: base 100 ms, max 30 000 ms. -/
def RetryDelay.defaultConfig : RetryDelay :=
  { baseDelayMs := 100, maxDelayMs := 30000 }

/-- `let exp_delay = self.base_delay_ms * 2u64.pow(retry_count);`
(src/delay.rs line 48).  Plain `u64` multiplication: under release-mode
overflow semantics the product wraps modulo `2^64`. -/
def RetryDelay.expDelay (rd : RetryDelay) (retryCount : Nat) : Nat :=
  rd.baseDelayMs * pow2u64 retryCount % U64MOD

/-- `let capped_delay = exp_delay.min(self.max_delay_ms);`
(src/delay.rs line 51). -/
def RetryDelay.cappedDelay (rd : RetryDelay) (retryCount : Nat) : Nat :=
  min (rd.expDelay retryCount) rd.maxDelayMs

/-- An abstract random generator algorithm over a state type `σ`:
`seedFromU64` models `SeedableRng::seed_from_u64` and `genRangeInclusive`
models `rng.gen_range(0..=hi)` (returning the drawn value and the advanced
generator state).  The concrete `SmallRng` algorithm lives in the `rand`
crate, outside this repository, so it is a parameter of the model. -/
structure RngAlgo (σ : Type) where
  seedFromU64 : Nat → σ
  genRangeInclusive : σ → Nat → Nat × σ

/-- A generator is well behaved when `gen_range(0..=hi)` lands in the
inclusive range `[0, hi]` — the contract of `rand`'s `gen_range`. -/
def rngOk {σ : Type} (A : RngAlgo σ) : Prop :=
  ∀ (st : σ) (hi : Nat), (A.genRangeInclusive st hi).1 ≤ hi

/-- `thread_local! { static THREAD_RNG = RefCell::new(SmallRng::seed_from_u64(0)) }`
(src/delay.rs lines 5-7): each thread's generator starts from the constant
seed 0. -/
def threadRngInit {σ : Type} (A : RngAlgo σ) : σ := A.seedFromU64 0

/-- `RetryDelay::calculate_delay` (src/delay.rs lines 46-60): exponential
delay, cap at `max_delay_ms`, then a full-jitter draw from
`0..=capped_delay` using the thread-local generator state. -/
def RetryDelay.calculateDelay {σ : Type} (A : RngAlgo σ) (rd : RetryDelay)
    (retryCount : Nat) (st : σ) : Nat × σ :=
  A.genRangeInclusive st (rd.cappedDelay retryCount)

/-- The delays produced by one thread that makes a sequence of
`calculate_delay` calls (each given as a `RetryDelay` configuration and a
retry count), with the thread-local generator state threaded from its
`seed_from_u64(0)` initializer. -/
def runDelays {σ : Type} (A : RngAlgo σ) (calls : List (RetryDelay × Nat)) : List Nat :=
  (calls.foldl
    (fun acc call =>
      let (d, st) := RetryDelay.calculateDelay A call.1 call.2 acc.2
      (acc.1 ++ [d], st))
    (([] : List Nat), threadRngInit A)).1

/-- Modelled from the spec: `exp = base_delay_ms * 2^r` "using saturating
multiplication" (spec §4.1 step 1) — `u64::saturating_mul`, clamping at
`u64::MAX`.  This follows the spec's words, for comparison against
`RetryDelay.expDelay`, which embeds the source. -/
def saturatingMulU64 (a b : Nat) : Nat := min (a * b) (U64MOD - 1)

/-- Modelled from the spec: the pre-jitter cap of §4.1 steps 1-2, with the
exponential delay computed by saturating multiplication. -/
def cappedDelaySaturating (rd : RetryDelay) (retryCount : Nat) : Nat :=
  min (saturatingMulU64 rd.baseDelayMs (2 ^ retryCount)) rd.maxDelayMs

/-! ## Kurrent adapter (src/kurrent_adapter.rs) -/

/-- The append request that `Kurrent::publish` issues to the backing
client: the stream name, the append options, and the event payloads. -/
structure KurrentAppendCall (E : Type) where
  stream : String
  options : AppendToStreamOptions
  events : List E
deriving DecidableEq, Repr

/-- `Kurrent::publish` (src/kurrent_adapter.rs lines 46-58), as the
append request it sends: the target stream is
`events.first().map(|_| "test-stream").unwrap_or("")` and the options are
`AppendToStreamOptions::default()`; the `_expected_version` argument is
never read. -/
def kurrentPublishRequest {E : Type} (events : List E)
    (_expectedVersion : Option Nat) : KurrentAppendCall E :=
  { stream :=
      match events.head? with
      | some _ => "test-stream"
      | none => ""
    options := appendToStreamOptionsDefault
    events := events }

/-! ## Execution engine (src/store/mod.rs) -/

/-- `ExecuteConfig` (re-exported from src/store/config.rs; the engine only
uses its two accessors `max_retries() -> u32` and
`retry_delay() -> RetryDelay`, spec §4.2), modelled as the value bundle
those accessors read. -/
structure ExecuteConfig where
  maxRetries : Nat
  retryDelay : RetryDelay
deriving DecidableEq, Repr

/-- The `Command<E>` trait (src/command/mod.rs), restricted to the
operations the `execute` loop calls, as a dictionary over a command value
type `C`, an event type `E` and a domain error type `D`.  `applyEvent` is
`Command::apply` (default: `set_state(get_state().apply(event))`),
`errToString` is the `e.to_string()` used to build `CommandFailed`. -/
structure CommandImpl (E C D : Type) where
  handle : C → Except D (List E)
  eventStreamId : C → EventStreamId
  applyEvent : C → E → C
  markRetry : C → C
  overrideExpectedVersion : C → Option Nat
  errToString : D → String

/-- The event-store port used by `execute` (`EventStoreOps`), as a
dictionary over an abstract store state `S`.  `readStream` models
`read_stream` together with the subsequent `EventStream::next` draws: it
yields either a fatal error, or the list of draw results in stream order,
each draw being an `(event, version)` pair or an error (for example a
deserialization failure).  `publish` returns the call's result and the
store state after the call (`publish` takes `&mut self`; `read_stream`
takes `&self` and leaves the state unchanged). -/
structure StoreModel (E S D : Type) where
  readStream : S → EventStreamId → Except (Error D) (List (Except (Error D) (E × Nat)))
  publish : S → EventStreamId → List E → AppendToStreamOptions → Except (Error D) Unit × S

/-- One iteration of the `execute` loop, logged: the command the attempt
started from, the `retries` counter, the raw read result, the command and
`expected_version` that `handle` was called with plus `handle`'s result
(`none` when the read phase failed), the publish call issued with its
result (`none` when nothing was published), and the backoff sleep taken
(retry count passed to `calculate_delay`, generator state before the
draw, and the drawn delay in ms). -/
structure AttemptRec (E C D σ : Type) where
  start : C
  retries : Nat
  readResult : Except (Error D) (List (Except (Error D) (E × Nat)))
  handled : Option (C × Option Nat × Except D (List E))
  publishCall : Option (List E × AppendToStreamOptions × Except (Error D) Unit)
  sleep : Option (Nat × σ × Nat)
deriving DecidableEq, Repr

/-- The read/fold loop of `execute` (src/store/mod.rs lines 144-149):
`while let Some((event, version)) = event_stream.next().await? {
command = command.apply(event); expected_version = Some(version); }`.
A draw that yields an error aborts with that error (the `?`). -/
def drainStream {E C D : Type} (ci : CommandImpl E C D) :
    C → Option Nat → List (Except (Error D) (E × Nat)) →
    Except (Error D) (C × Option Nat)
  | cmd, ev, [] => Except.ok (cmd, ev)
  | _, _, Except.error e :: _ => Except.error e
  | cmd, _, Except.ok (e, v) :: rest =>
      drainStream ci (ci.applyEvent cmd e) (some v) rest

/-- The append-options computation of `execute` (src/store/mod.rs lines
168-174): `match (command.override_expected_version(), expected_version)`. -/
def appendOptions {E C D : Type} (ci : CommandImpl E C D) (cmd : C)
    (expectedVersion : Option Nat) : AppendToStreamOptions :=
  match ci.overrideExpectedVersion cmd, expectedVersion with
  | some v, _ => appendToStreamOptionsDefault.withExpectedRevision (ExpectedRevision.exact v)
  | none, some v => appendToStreamOptionsDefault.withExpectedRevision (ExpectedRevision.exact v)
  | none, none => appendToStreamOptionsDefault

/-- Outcome of the decide/append part of one loop iteration: either the
loop breaks (`done`, with the result, the store state and the attempt
record), or it retries (`retry`, with the next command
`command.mark_retry()`, the store and generator states after the publish
and the sleep, and the attempt record). -/
inductive DecideStep (E C S D σ : Type) where
  | done (res : Except (Error D) Unit) (s : S) (rec : AttemptRec E C D σ)
  | retry (next : C) (s : S) (rng : σ) (rec : AttemptRec E C D σ)

/-- The decide and append phases of one `execute` loop iteration
(src/store/mod.rs lines 152-199), entered with the command `cmd` and
`expected_version` `ev` produced by the read phase:
call `cmd.handle()`; on error break `CommandFailed`; on an empty event
list break `Ok(())`; otherwise publish with the computed append options
and either break `Ok(())`, break the publish error, or (on
`EventStoreVersionMismatch`) compute the jittered delay with the current
`retries` counter, sleep, and continue with `cmd.mark_retry()`. -/
def decideAppend {E C S D σ : Type} (ci : CommandImpl E C D)
    (store : StoreModel E S D) (A : RngAlgo σ) (cfg : ExecuteConfig)
    (start : C) (retries : Nat)
    (readRes : Except (Error D) (List (Except (Error D) (E × Nat))))
    (cmd : C) (ev : Option Nat) (s : S) (rng : σ) : DecideStep E C S D σ :=
  match ci.handle cmd with
  | Except.error e =>
      DecideStep.done
        (Except.error (Error.commandFailed (ci.errToString e) (retries + 1)
          cfg.maxRetries e))
        s
        { start := start, retries := retries, readResult := readRes
          handled := some (cmd, ev, Except.error e)
          publishCall := none, sleep := none }
  | Except.ok events =>
      if events.isEmpty then
        DecideStep.done (Except.ok ()) s
          { start := start, retries := retries, readResult := readRes
            handled := some (cmd, ev, Except.ok events)
            publishCall := none, sleep := none }
      else
        match (store.publish s (ci.eventStreamId cmd) events
            (appendOptions ci cmd ev)).1 with
        | Except.ok _ =>
            DecideStep.done (Except.ok ())
              (store.publish s (ci.eventStreamId cmd) events
                (appendOptions ci cmd ev)).2
              { start := start, retries := retries, readResult := readRes
                handled := some (cmd, ev, Except.ok events)
                publishCall := some (events, appendOptions ci cmd ev, Except.ok ())
                sleep := none }
        | Except.error (Error.eventStoreVersionMismatch st exv ac src) =>
            DecideStep.retry (ci.markRetry cmd)
              (store.publish s (ci.eventStreamId cmd) events
                (appendOptions ci cmd ev)).2
              (RetryDelay.calculateDelay A cfg.retryDelay retries rng).2
              { start := start, retries := retries, readResult := readRes
                handled := some (cmd, ev, Except.ok events)
                publishCall := some (events, appendOptions ci cmd ev,
                  Except.error (Error.eventStoreVersionMismatch st exv ac src))
                sleep := some (retries, rng,
                  (RetryDelay.calculateDelay A cfg.retryDelay retries rng).1) }
        | Except.error e =>
            DecideStep.done (Except.error e)
              (store.publish s (ci.eventStreamId cmd) events
                (appendOptions ci cmd ev)).2
              { start := start, retries := retries, readResult := readRes
                handled := some (cmd, ev, Except.ok events)
                publishCall := some (events, appendOptions ci cmd ev, Except.error e)
                sleep := none }

/-- The attempt record carried by a `DecideStep`. -/
def DecideStep.stepRec {E C S D σ : Type} :
    DecideStep E C S D σ → AttemptRec E C D σ
  | DecideStep.done _ _ r => r
  | DecideStep.retry _ _ _ r => r

/-- Result of a full `execute` call: the returned `Result`, the final
store and generator states, and the per-attempt trace. -/
structure ExecOutcome (E C S D σ : Type) where
  result : Except (Error D) Unit
  store : S
  rng : σ
  trace : List (AttemptRec E C D σ)
deriving DecidableEq, Repr

/-- The read phase of one `execute` loop iteration (src/store/mod.rs
lines 129-150): read the stream for the current command's id;
`Err(EventStoreOther(ResourceNotFound))` is absorbed as an empty stream
(the command and `expected_version = None` pass through unchanged), any
other read error is fatal, and a successful read is folded into the
command by `drainStream`. -/
def readPhase {E C S D : Type} (ci : CommandImpl E C D)
    (store : StoreModel E S D) (s : S) (cmd : C) :
    Except (Error D) (C × Option Nat) :=
  match store.readStream s (ci.eventStreamId cmd) with
  | Except.error (Error.eventStoreOther EsError.resourceNotFound) =>
      Except.ok (cmd, none)
  | Except.error e => Except.error e
  | Except.ok items => drainStream ci cmd none items

/-- The `execute` loop (src/store/mod.rs lines 121-200).  The Rust guard
`if retries > config.max_retries() { break MaxRetriesExceeded }` is
encoded by running the loop with `fuel = config.max_retries() + 1 -
retries`: since `retries` increases by exactly 1 per iteration, `fuel`
reaches 0 exactly when `retries` first exceeds `max_retries`.  Each
iteration: the read phase `readPhase`, then the decide/append phase
`decideAppend`, retrying with `mark_retry` on a version mismatch. -/
def executeGo {E C S D σ : Type} (ci : CommandImpl E C D)
    (store : StoreModel E S D) (A : RngAlgo σ) (cfg : ExecuteConfig) :
    Nat → Nat → S → σ → C → ExecOutcome E C S D σ
  | 0, _, s, rng, cmd =>
      { result := Except.error (Error.maxRetriesExceeded
          (ci.eventStreamId cmd).render cfg.maxRetries)
        store := s, rng := rng, trace := [] }
  | fuel + 1, retries, s, rng, cmd =>
      match readPhase ci store s cmd with
      | Except.error e =>
          { result := Except.error e, store := s, rng := rng
            trace := [{ start := cmd, retries := retries
                        readResult := store.readStream s (ci.eventStreamId cmd)
                        handled := none, publishCall := none, sleep := none }] }
      | Except.ok (cmd', ev) =>
          match decideAppend ci store A cfg cmd retries
              (store.readStream s (ci.eventStreamId cmd)) cmd' ev s rng with
          | DecideStep.done res s' rec =>
              { result := res, store := s', rng := rng, trace := [rec] }
          | DecideStep.retry next s' rng' rec =>
              let o := executeGo ci store A cfg fuel (retries + 1) s' rng' next
              { result := o.result, store := o.store, rng := o.rng
                trace := rec :: o.trace }

/-- `execute` (src/store/mod.rs lines 107-205): run the loop from
`retries = 0` with the input command. -/
def execute {E C S D σ : Type} (ci : CommandImpl E C D)
    (store : StoreModel E S D) (A : RngAlgo σ) (cfg : ExecuteConfig)
    (s : S) (rng : σ) (cmd : C) : ExecOutcome E C S D σ :=
  executeGo ci store A cfg (cfg.maxRetries + 1) 0 s rng cmd

/-- Number of `publish` calls made during an execution. -/
def publishCount {E C D σ : Type} (tr : List (AttemptRec E C D σ)) : Nat :=
  tr.countP (fun r => r.publishCall.isSome)

/-- Number of `handle` calls made during an execution. -/
def handleCount {E C D σ : Type} (tr : List (AttemptRec E C D σ)) : Nat :=
  tr.countP (fun r => r.handled.isSome)

/-- The command's `event_stream_id` is stable under `apply` and
`mark_retry` (spec §3 invariant: "A command's `event_stream_id` is stable
across retries"). -/
def streamIdStable {E C D : Type} (ci : CommandImpl E C D) : Prop :=
  (∀ c e, ci.eventStreamId (ci.applyEvent c e) = ci.eventStreamId c) ∧
  (∀ c, ci.eventStreamId (ci.markRetry c) = ci.eventStreamId c)

/-- Every read either reports the raw not-found error that `execute`
absorbs, or yields a clean list of `(event, version)` draws. -/
def readsClean {E S D : Type} (store : StoreModel E S D) : Prop :=
  ∀ s id, store.readStream s id =
      Except.error (Error.eventStoreOther EsError.resourceNotFound) ∨
    ∃ pairs : List (E × Nat),
      store.readStream s id = Except.ok (pairs.map Except.ok)

/-- Every publish call fails with `EventStoreVersionMismatch`. -/
def alwaysMismatch {E S D : Type} (store : StoreModel E S D) : Prop :=
  ∀ s id evs opts, resultIsVersionMismatch (store.publish s id evs opts).1 = true

/-- `handle` always succeeds with a non-empty event list. -/
def handleNonempty {E C D : Type} (ci : CommandImpl E C D) : Prop :=
  ∀ c, ∃ evs, ci.handle c = Except.ok evs ∧ evs ≠ []

/-! ## Concrete instances used to evaluate the model on closed inputs -/

/-- A concrete well-behaved generator over `Nat` states. -/
def algN : RngAlgo Nat :=
  { seedFromU64 := fun n => n
    genRangeInclusive := fun st hi => (min st hi, st + 1) }

/-- A fixed concrete stream id. -/
def sidD : EventStreamId := { uuid := "d" }

/-- A command (over unit events, `Nat` state, unit domain errors) that
emits one event per `handle` call and counts applied events. -/
def ciOne : CommandImpl Unit Nat Unit :=
  { handle := fun _ => Except.ok [()]
    eventStreamId := fun _ => sidD
    applyEvent := fun c _ => c + 1
    markRetry := fun c => c
    overrideExpectedVersion := fun _ => none
    errToString := fun _ => "boom" }

/-- `ciOne` with `override_expected_version = Some 7`. -/
def ciOverride : CommandImpl Unit Nat Unit :=
  { ciOne with overrideExpectedVersion := fun _ => some 7 }

/-- A command whose `handle` always returns the empty event list. -/
def ciEmpty : CommandImpl Unit Nat Unit :=
  { ciOne with handle := fun _ => Except.ok [] }

/-- A command whose `handle` always fails. -/
def ciFail : CommandImpl Unit Nat Unit :=
  { ciOne with handle := fun _ => Except.error () }

/-- A store (state `Nat` counting accepted appends) whose reads yield an
empty stream and whose publishes always succeed. -/
def stOk : StoreModel Unit Nat Unit :=
  { readStream := fun _ _ => Except.ok []
    publish := fun s _ _ _ => (Except.ok (), s + 1) }

/-- A store whose reads yield two events (versions 0 and 1) and whose
publishes always succeed. -/
def stTwo : StoreModel Unit Nat Unit :=
  { readStream := fun _ _ =>
      Except.ok [Except.ok ((), 0), Except.ok ((), 1)]
    publish := fun s _ _ _ => (Except.ok (), s + 1) }

/-- A store whose reads yield an empty stream and whose publishes always
fail with a version mismatch. -/
def stVM : StoreModel Unit Nat Unit :=
  { readStream := fun _ _ => Except.ok []
    publish := fun s id _ _ =>
      (Except.error (Error.eventStoreVersionMismatch id (some 0) (some 1)
        (EsError.other "wrong expected version")), s + 1) }

/-- A store whose reads fail with the dedicated
`Error::EventStoreStreamNotFound` variant. -/
def stSNF : StoreModel Unit Nat Unit :=
  { readStream := fun _ _ =>
      Except.error (Error.eventStoreStreamNotFound sidD)
    publish := fun s _ _ _ => (Except.ok (), s + 1) }

/-- A store whose reads fail with the raw
`Error::EventStoreOther(eventstore::Error::ResourceNotFound)` that the
engine absorbs. -/
def stRNF : StoreModel Unit Nat Unit :=
  { readStream := fun _ _ =>
      Except.error (Error.eventStoreOther EsError.resourceNotFound)
    publish := fun s _ _ _ => (Except.ok (), s + 1) }

/-- A small execute configuration: `max_retries = 2`, default delays. -/
def cfg2 : ExecuteConfig :=
  { maxRetries := 2, retryDelay := RetryDelay.defaultConfig }

/-! ## Helper lemmas -/

theorem drainStream_map_ok {E C D : Type} (ci : CommandImpl E C D)
    (pairs : List (E × Nat)) : ∀ (cmd : C) (ev : Option Nat),
    drainStream ci cmd ev (pairs.map Except.ok) =
      Except.ok (pairs.foldl (fun a p => ci.applyEvent a p.1) cmd,
        pairs.foldl (fun _ p => some p.2) ev) := by
  induction pairs with
  | nil => intro cmd ev; rfl
  | cons p rest ih =>
      intro cmd ev
      rcases p with ⟨e, v⟩
      simpa [drainStream] using ih (ci.applyEvent cmd e) (some v)

theorem drainStream_ok_shape {E C D : Type} (ci : CommandImpl E C D) :
    ∀ (items : List (Except (Error D) (E × Nat))) (cmd : C) (ev : Option Nat)
      (c' : C) (ev' : Option Nat),
    drainStream ci cmd ev items = Except.ok (c', ev') →
    ∃ pairs : List (E × Nat), items = pairs.map Except.ok ∧
      c' = pairs.foldl (fun a p => ci.applyEvent a p.1) cmd ∧
      ev' = pairs.foldl (fun _ p => some p.2) ev := by
  intro items
  induction items with
  | nil =>
      intro cmd ev c' ev' h
      refine ⟨[], by simp, ?_, ?_⟩ <;> simp [drainStream] at h <;> simp [h.1, h.2]
  | cons it rest ih =>
      intro cmd ev c' ev' h
      rcases it with e | ⟨e, v⟩
      · simp [drainStream] at h
      · have h' : drainStream ci (ci.applyEvent cmd e) (some v) rest =
            Except.ok (c', ev') := h
        rcases ih (ci.applyEvent cmd e) (some v) c' ev' h' with
          ⟨pairs, hitems, hc, hev⟩
        exact ⟨(e, v) :: pairs, by simp [hitems], by simp [hc], by simp [hev]⟩

theorem foldl_snd_general {E : Type} (pairs : List (E × Nat)) :
    ∀ (a : Option Nat),
    pairs.foldl (fun _ p => some p.2) a =
      match (pairs.map Prod.snd).getLast? with
      | some v => some v
      | none => a := by
  induction pairs with
  | nil => intro a; rfl
  | cons p rest ih =>
      intro a
      simp only [List.foldl_cons, List.map_cons, List.getLast?_cons]
      rw [ih (some p.2)]
      cases h : (rest.map Prod.snd).getLast? <;> simp [h]

theorem foldl_snd_getLast {E : Type} (pairs : List (E × Nat)) :
    pairs.foldl (fun _ p => some p.2) (none : Option Nat) =
      (pairs.map Prod.snd).getLast? := by
  rw [foldl_snd_general]
  cases h : (pairs.map Prod.snd).getLast? <;> simp

theorem eventStreamId_foldl {E C D : Type} {ci : CommandImpl E C D}
    (hs : streamIdStable ci) (pairs : List (E × Nat)) : ∀ (cmd : C),
    ci.eventStreamId (pairs.foldl (fun a p => ci.applyEvent a p.1) cmd) =
      ci.eventStreamId cmd := by
  induction pairs with
  | nil => intro cmd; rfl
  | cons p rest ih => intro cmd; rw [List.foldl_cons, ih, hs.1]

theorem readPhase_of_rnf {E C S D : Type} (ci : CommandImpl E C D)
    (store : StoreModel E S D) (s : S) (cmd : C)
    (h : store.readStream s (ci.eventStreamId cmd) =
      Except.error (Error.eventStoreOther EsError.resourceNotFound)) :
    readPhase ci store s cmd = Except.ok (cmd, none) := by
  unfold readPhase
  rw [h]

theorem readPhase_of_read_ok {E C S D : Type} (ci : CommandImpl E C D)
    (store : StoreModel E S D) (s : S) (cmd : C)
    (items : List (Except (Error D) (E × Nat)))
    (h : store.readStream s (ci.eventStreamId cmd) = Except.ok items) :
    readPhase ci store s cmd = drainStream ci cmd none items := by
  unfold readPhase
  rw [h]

theorem readPhase_of_read_err {E C S D : Type} (ci : CommandImpl E C D)
    (store : StoreModel E S D) (s : S) (cmd : C) (e : Error D)
    (h : store.readStream s (ci.eventStreamId cmd) = Except.error e)
    (hne : e ≠ Error.eventStoreOther EsError.resourceNotFound) :
    readPhase ci store s cmd = Except.error e := by
  unfold readPhase
  rw [h]
  rcases e with _ | _ | _ | _ | src | _ | _ | _ <;> try rfl
  rcases src with _ | msg
  · exact absurd rfl hne
  · rfl

theorem readPhase_ok_shape {E C S D : Type} (ci : CommandImpl E C D)
    (store : StoreModel E S D) (s : S) (cmd : C) (c' : C) (ev : Option Nat)
    (h : readPhase ci store s cmd = Except.ok (c', ev)) :
    (store.readStream s (ci.eventStreamId cmd) =
        Except.error (Error.eventStoreOther EsError.resourceNotFound) ∧
      c' = cmd ∧ ev = none) ∨
    ∃ items, store.readStream s (ci.eventStreamId cmd) = Except.ok items ∧
      drainStream ci cmd none items = Except.ok (c', ev) := by
  unfold readPhase at h
  split at h
  · rename_i heq
    left
    refine ⟨heq, ?_, ?_⟩ <;> simp at h <;> simp [h.1.symm, h.2.symm]
  · simp at h
  · rename_i items heq
    right
    exact ⟨items, heq, h⟩

theorem readPhase_err_shape {E C S D : Type} (ci : CommandImpl E C D)
    (store : StoreModel E S D) (s : S) (cmd : C) (e : Error D)
    (h : readPhase ci store s cmd = Except.error e) :
    (store.readStream s (ci.eventStreamId cmd) = Except.error e ∧
      e ≠ Error.eventStoreOther EsError.resourceNotFound) ∨
    ∃ items, store.readStream s (ci.eventStreamId cmd) = Except.ok items ∧
      drainStream ci cmd none items = Except.error e := by
  unfold readPhase at h
  split at h
  · simp at h
  · left
    simp at h
    subst h
    refine ⟨by assumption, fun hc => ?_⟩
    simp_all
  · rename_i items heq
    right
    exact ⟨items, heq, h⟩

theorem resultIsVersionMismatch_shape {D : Type} (r : Except (Error D) Unit)
    (h : resultIsVersionMismatch r = true) :
    ∃ st exv ac src, r =
      Except.error (Error.eventStoreVersionMismatch st exv ac src) := by
  rcases r with e | u
  · rcases e with _ | _ | _ | _ | _ | _ | _ | _ <;>
      simp [resultIsVersionMismatch, Error.isVersionMismatch] at h ⊢
  · simp [resultIsVersionMismatch] at h

theorem isEmpty_false_of_ne_nil {α : Type} {l : List α} (h : l ≠ []) :
    l.isEmpty = false := by
  cases l
  · exact absurd rfl h
  · rfl

theorem decideAppend_stepRec_fields {E C S D σ : Type} (ci : CommandImpl E C D)
    (store : StoreModel E S D) (A : RngAlgo σ) (cfg : ExecuteConfig)
    (start : C) (retries : Nat)
    (readRes : Except (Error D) (List (Except (Error D) (E × Nat))))
    (cmd : C) (ev : Option Nat) (s : S) (rng : σ) :
    (decideAppend ci store A cfg start retries readRes cmd ev s rng).stepRec.start
        = start ∧
    (decideAppend ci store A cfg start retries readRes cmd ev s rng).stepRec.retries
        = retries ∧
    (decideAppend ci store A cfg start retries readRes cmd ev s rng).stepRec.readResult
        = readRes ∧
    (decideAppend ci store A cfg start retries readRes cmd ev s rng).stepRec.handled
        = some (cmd, ev, ci.handle cmd) := by
  unfold decideAppend
  split <;> rename_i hh
  · simp [DecideStep.stepRec, hh]
  · split
    · simp [DecideStep.stepRec, hh]
    · split <;> simp [DecideStep.stepRec, hh]

theorem decideAppend_handle_error {E C S D σ : Type} (ci : CommandImpl E C D)
    (store : StoreModel E S D) (A : RngAlgo σ) (cfg : ExecuteConfig)
    (start : C) (retries : Nat)
    (readRes : Except (Error D) (List (Except (Error D) (E × Nat))))
    (cmd : C) (ev : Option Nat) (s : S) (rng : σ) (e : D)
    (he : ci.handle cmd = Except.error e) :
    decideAppend ci store A cfg start retries readRes cmd ev s rng =
      DecideStep.done
        (Except.error (Error.commandFailed (ci.errToString e) (retries + 1)
          cfg.maxRetries e)) s
        { start := start, retries := retries, readResult := readRes
          handled := some (cmd, ev, Except.error e)
          publishCall := none, sleep := none } := by
  unfold decideAppend
  rw [he]

theorem decideAppend_handle_nil {E C S D σ : Type} (ci : CommandImpl E C D)
    (store : StoreModel E S D) (A : RngAlgo σ) (cfg : ExecuteConfig)
    (start : C) (retries : Nat)
    (readRes : Except (Error D) (List (Except (Error D) (E × Nat))))
    (cmd : C) (ev : Option Nat) (s : S) (rng : σ)
    (he : ci.handle cmd = Except.ok []) :
    decideAppend ci store A cfg start retries readRes cmd ev s rng =
      DecideStep.done (Except.ok ()) s
        { start := start, retries := retries, readResult := readRes
          handled := some (cmd, ev, Except.ok [])
          publishCall := none, sleep := none } := by
  unfold decideAppend
  rw [he]
  rfl

theorem decideAppend_publish_mismatch {E C S D σ : Type} (ci : CommandImpl E C D)
    (store : StoreModel E S D) (A : RngAlgo σ) (cfg : ExecuteConfig)
    (start : C) (retries : Nat)
    (readRes : Except (Error D) (List (Except (Error D) (E × Nat))))
    (cmd : C) (ev : Option Nat) (s : S) (rng : σ) (evs : List E)
    (st : EventStreamId) (exv ac : Option Nat) (src : EsError)
    (he : ci.handle cmd = Except.ok evs) (hne : evs ≠ [])
    (hp : (store.publish s (ci.eventStreamId cmd) evs (appendOptions ci cmd ev)).1 =
      Except.error (Error.eventStoreVersionMismatch st exv ac src)) :
    decideAppend ci store A cfg start retries readRes cmd ev s rng =
      DecideStep.retry (ci.markRetry cmd)
        (store.publish s (ci.eventStreamId cmd) evs (appendOptions ci cmd ev)).2
        (RetryDelay.calculateDelay A cfg.retryDelay retries rng).2
        { start := start, retries := retries, readResult := readRes
          handled := some (cmd, ev, Except.ok evs)
          publishCall := some (evs, appendOptions ci cmd ev,
            Except.error (Error.eventStoreVersionMismatch st exv ac src))
          sleep := some (retries, rng,
            (RetryDelay.calculateDelay A cfg.retryDelay retries rng).1) } := by
  unfold decideAppend
  rw [he]
  simp only [isEmpty_false_of_ne_nil hne, Bool.false_eq_true, if_false]
  rw [hp]

theorem decideAppend_publish_ok {E C S D σ : Type} (ci : CommandImpl E C D)
    (store : StoreModel E S D) (A : RngAlgo σ) (cfg : ExecuteConfig)
    (start : C) (retries : Nat)
    (readRes : Except (Error D) (List (Except (Error D) (E × Nat))))
    (cmd : C) (ev : Option Nat) (s : S) (rng : σ) (evs : List E)
    (he : ci.handle cmd = Except.ok evs) (hne : evs ≠ [])
    (hp : (store.publish s (ci.eventStreamId cmd) evs (appendOptions ci cmd ev)).1 =
      Except.ok ()) :
    decideAppend ci store A cfg start retries readRes cmd ev s rng =
      DecideStep.done (Except.ok ())
        (store.publish s (ci.eventStreamId cmd) evs (appendOptions ci cmd ev)).2
        { start := start, retries := retries, readResult := readRes
          handled := some (cmd, ev, Except.ok evs)
          publishCall := some (evs, appendOptions ci cmd ev, Except.ok ())
          sleep := none } := by
  unfold decideAppend
  rw [he]
  simp only [isEmpty_false_of_ne_nil hne, Bool.false_eq_true, if_false]
  rw [hp]

theorem decideAppend_publish_other {E C S D σ : Type} (ci : CommandImpl E C D)
    (store : StoreModel E S D) (A : RngAlgo σ) (cfg : ExecuteConfig)
    (start : C) (retries : Nat)
    (readRes : Except (Error D) (List (Except (Error D) (E × Nat))))
    (cmd : C) (ev : Option Nat) (s : S) (rng : σ) (evs : List E) (e : Error D)
    (he : ci.handle cmd = Except.ok evs) (hne : evs ≠ [])
    (hp : (store.publish s (ci.eventStreamId cmd) evs (appendOptions ci cmd ev)).1 =
      Except.error e)
    (hvm : e.isVersionMismatch = false) :
    decideAppend ci store A cfg start retries readRes cmd ev s rng =
      DecideStep.done (Except.error e)
        (store.publish s (ci.eventStreamId cmd) evs (appendOptions ci cmd ev)).2
        { start := start, retries := retries, readResult := readRes
          handled := some (cmd, ev, Except.ok evs)
          publishCall := some (evs, appendOptions ci cmd ev, Except.error e)
          sleep := none } := by
  unfold decideAppend
  rw [he]
  simp only [isEmpty_false_of_ne_nil hne, Bool.false_eq_true, if_false]
  rw [hp]
  rcases e with _ | _ | _ | _ | _ | _ | _ | _ <;>
    simp [Error.isVersionMismatch] at hvm ⊢

theorem decideAppend_publishCall_shape {E C S D σ : Type} (ci : CommandImpl E C D)
    (store : StoreModel E S D) (A : RngAlgo σ) (cfg : ExecuteConfig)
    (start : C) (retries : Nat)
    (readRes : Except (Error D) (List (Except (Error D) (E × Nat))))
    (cmd : C) (ev : Option Nat) (s : S) (rng : σ)
    (evs : List E) (opts : AppendToStreamOptions) (pr : Except (Error D) Unit)
    (h : (decideAppend ci store A cfg start retries readRes cmd ev s rng).stepRec.publishCall
      = some (evs, opts, pr)) :
    ci.handle cmd = Except.ok evs ∧ evs ≠ [] ∧ opts = appendOptions ci cmd ev ∧
      pr = (store.publish s (ci.eventStreamId cmd) evs opts).1 := by
  unfold decideAppend at h
  split at h
  · simp [DecideStep.stepRec] at h
  · rename_i events hh
    split at h
    · simp [DecideStep.stepRec] at h
    · rename_i hemp
      split at h <;> rename_i hpub <;>
        simp only [DecideStep.stepRec, Option.some.injEq, Prod.mk.injEq] at h <;>
        rcases h with ⟨h1, h2, h3⟩ <;> subst h1 <;> subst h2 <;> subst h3 <;>
        refine ⟨hh, fun hnil => by simp [hnil] at hemp, rfl, ?_⟩
      · rw [hpub]
      · rw [hpub]
      · rw [hpub]

theorem decideAppend_sleep_shape {E C S D σ : Type} (ci : CommandImpl E C D)
    (store : StoreModel E S D) (A : RngAlgo σ) (cfg : ExecuteConfig)
    (start : C) (retries : Nat)
    (readRes : Except (Error D) (List (Except (Error D) (E × Nat))))
    (cmd : C) (ev : Option Nat) (s : S) (rng : σ)
    (ra : Nat) (st : σ) (d : Nat)
    (h : (decideAppend ci store A cfg start retries readRes cmd ev s rng).stepRec.sleep
      = some (ra, st, d)) :
    ra = retries ∧ st = rng ∧
      d = (RetryDelay.calculateDelay A cfg.retryDelay retries rng).1 ∧
      ∃ evs opts pr,
        (decideAppend ci store A cfg start retries readRes cmd ev s rng).stepRec.publishCall
          = some (evs, opts, pr) ∧ resultIsVersionMismatch pr = true := by
  unfold decideAppend at h
  split at h
  · simp [DecideStep.stepRec] at h
  · rename_i events hh
    split at h
    · simp [DecideStep.stepRec] at h
    · rename_i hemp
      have hne : events ≠ [] := fun hnil => by simp [hnil] at hemp
      split at h
      · simp [DecideStep.stepRec] at h
      · rename_i st' exv ac src hpub
        simp only [DecideStep.stepRec, Option.some.injEq, Prod.mk.injEq] at h
        rcases h with ⟨h1, h2, h3⟩
        subst h1; subst h2; subst h3
        refine ⟨rfl, rfl, rfl, events, appendOptions ci cmd ev,
          Except.error (Error.eventStoreVersionMismatch st' exv ac src), ?_,
          by simp [resultIsVersionMismatch, Error.isVersionMismatch]⟩
        rw [decideAppend_publish_mismatch ci store A cfg start retries readRes
          cmd ev s rng events st' exv ac src hh hne hpub]
        rfl
      · simp [DecideStep.stepRec] at h

theorem decideAppend_retry_shape {E C S D σ : Type} (ci : CommandImpl E C D)
    (store : StoreModel E S D) (A : RngAlgo σ) (cfg : ExecuteConfig)
    (start : C) (retries : Nat)
    (readRes : Except (Error D) (List (Except (Error D) (E × Nat))))
    (cmd : C) (ev : Option Nat) (s : S) (rng : σ)
    (next : C) (s' : S) (rng' : σ) (rec : AttemptRec E C D σ)
    (h : decideAppend ci store A cfg start retries readRes cmd ev s rng =
      DecideStep.retry next s' rng' rec) :
    next = ci.markRetry cmd ∧
    rec.sleep = some (retries, rng,
      (RetryDelay.calculateDelay A cfg.retryDelay retries rng).1) ∧
    ∃ evs, ci.handle cmd = Except.ok evs ∧ evs ≠ [] ∧
      rec.publishCall.isSome = true := by
  unfold decideAppend at h
  split at h
  · simp at h
  · rename_i events hh
    split at h
    · simp at h
    · rename_i hemp
      split at h <;> rename_i hpub
      · simp at h
      · simp only [DecideStep.retry.injEq] at h
        rcases h with ⟨h1, _, h3, h4⟩
        subst h1; subst h3; subst h4
        exact ⟨rfl, rfl, events, hh, fun hnil => by simp [hnil] at hemp, rfl⟩
      · simp at h

theorem decideAppend_done_sleep_none {E C S D σ : Type} (ci : CommandImpl E C D)
    (store : StoreModel E S D) (A : RngAlgo σ) (cfg : ExecuteConfig)
    (start : C) (retries : Nat)
    (readRes : Except (Error D) (List (Except (Error D) (E × Nat))))
    (cmd : C) (ev : Option Nat) (s : S) (rng : σ)
    (res : Except (Error D) Unit) (s' : S) (rec : AttemptRec E C D σ)
    (h : decideAppend ci store A cfg start retries readRes cmd ev s rng =
      DecideStep.done res s' rec) :
    rec.sleep = none := by
  unfold decideAppend at h
  split at h
  · simp only [DecideStep.done.injEq] at h
    rcases h with ⟨_, _, h3⟩
    subst h3; rfl
  · split at h
    · simp only [DecideStep.done.injEq] at h
      rcases h with ⟨_, _, h3⟩
      subst h3; rfl
    · split at h <;>
        first
        | (simp only [DecideStep.done.injEq] at h
           rcases h with ⟨_, _, h3⟩
           subst h3; rfl)
        | simp at h

theorem executeGo_trace_head {E C S D σ : Type} (ci : CommandImpl E C D)
    (store : StoreModel E S D) (A : RngAlgo σ) (cfg : ExecuteConfig)
    (fuel retries : Nat) (s : S) (rng : σ) (cmd : C)
    (rec : AttemptRec E C D σ) (tl : List (AttemptRec E C D σ))
    (h : (executeGo ci store A cfg fuel retries s rng cmd).trace = rec :: tl) :
    rec.start = cmd ∧ rec.retries = retries ∧
      rec.readResult = store.readStream s (ci.eventStreamId cmd) := by
  cases fuel with
  | zero => simp [executeGo] at h
  | succ n =>
      simp only [executeGo] at h
      rcases hR : readPhase ci store s cmd with e | ⟨cmd', ev⟩ <;>
        rw [hR] at h <;> dsimp only at h
      · simp only [List.cons.injEq] at h
        rw [← h.1]
        exact ⟨rfl, rfl, rfl⟩
      · rcases hD : decideAppend ci store A cfg cmd retries
            (store.readStream s (ci.eventStreamId cmd)) cmd' ev s rng with
          ⟨res, s', rec0⟩ | ⟨next, s', rng', rec0⟩ <;>
          rw [hD] at h <;> dsimp only at h <;>
          simp only [List.cons.injEq] at h <;> rw [← h.1] <;>
          have hf := decideAppend_stepRec_fields ci store A cfg cmd retries
            (store.readStream s (ci.eventStreamId cmd)) cmd' ev s rng <;>
          rw [hD] at hf <;>
          simp only [DecideStep.stepRec] at hf <;>
          exact ⟨hf.1, hf.2.1, hf.2.2.1⟩

theorem executeGo_trace_mem_rec {E C S D σ : Type} {ci : CommandImpl E C D}
    {store : StoreModel E S D} {A : RngAlgo σ} {cfg : ExecuteConfig}
    {P : AttemptRec E C D σ → Prop}
    (hP1 : ∀ (retries : Nat) (s : S) (cmd : C),
      P { start := cmd, retries := retries
          readResult := store.readStream s (ci.eventStreamId cmd)
          handled := none, publishCall := none, sleep := none })
    (hP2 : ∀ (retries : Nat) (s : S) (rng : σ) (cmd cmd' : C) (ev : Option Nat),
      readPhase ci store s cmd = Except.ok (cmd', ev) →
      P (decideAppend ci store A cfg cmd retries
          (store.readStream s (ci.eventStreamId cmd)) cmd' ev s rng).stepRec) :
    ∀ (fuel retries : Nat) (s : S) (rng : σ) (cmd : C)
      (rec : AttemptRec E C D σ),
      rec ∈ (executeGo ci store A cfg fuel retries s rng cmd).trace → P rec := by
  intro fuel
  induction fuel with
  | zero => intro retries s rng cmd rec h; simp [executeGo] at h
  | succ n ih =>
      intro retries s rng cmd rec h
      simp only [executeGo] at h
      rcases hR : readPhase ci store s cmd with e | ⟨cmd', ev⟩ <;>
        rw [hR] at h <;> dsimp only at h
      · simp only [List.mem_singleton] at h
        rw [h]
        exact hP1 retries s cmd
      · rcases hD : decideAppend ci store A cfg cmd retries
            (store.readStream s (ci.eventStreamId cmd)) cmd' ev s rng with
          ⟨res, s', rec0⟩ | ⟨next, s', rng', rec0⟩ <;>
          rw [hD] at h <;> dsimp only at h
        · simp only [List.mem_singleton] at h
          rw [h]
          have := hP2 retries s rng cmd cmd' ev hR
          rw [hD] at this
          exact this
        · simp only [List.mem_cons] at h
          rcases h with h | h
          · rw [h]
            have := hP2 retries s rng cmd cmd' ev hR
            rw [hD] at this
            exact this
          · exact ih (retries + 1) s' rng' next rec h

theorem executeGo_consecutive {E C S D σ : Type} (ci : CommandImpl E C D)
    (store : StoreModel E S D) (A : RngAlgo σ) (cfg : ExecuteConfig) :
    ∀ (fuel retries : Nat) (s : S) (rng : σ) (cmd : C) (j : Nat)
      (rec rec2 : AttemptRec E C D σ),
      (executeGo ci store A cfg fuel retries s rng cmd).trace[j]? = some rec →
      (executeGo ci store A cfg fuel retries s rng cmd).trace[j + 1]? = some rec2 →
      rec.retries = retries + j ∧
      (∃ st, rec.sleep = some (rec.retries, st,
        (RetryDelay.calculateDelay A cfg.retryDelay rec.retries st).1)) ∧
      ∃ c ev, rec.handled = some (c, ev, ci.handle c) ∧
        rec2.start = ci.markRetry c := by
  intro fuel
  induction fuel with
  | zero =>
      intro retries s rng cmd j rec rec2 h1 h2
      simp [executeGo] at h1
  | succ n ih =>
      intro retries s rng cmd j rec rec2 h1 h2
      simp only [executeGo] at h1 h2
      rcases hR : readPhase ci store s cmd with e | ⟨cmd', ev⟩ <;>
        rw [hR] at h1 h2 <;> dsimp only at h1 h2
      · simp at h2
      · rcases hD : decideAppend ci store A cfg cmd retries
            (store.readStream s (ci.eventStreamId cmd)) cmd' ev s rng with
          ⟨res, s', rec0⟩ | ⟨next, s', rng', rec0⟩ <;>
          rw [hD] at h1 h2 <;> dsimp only at h1 h2
        · simp at h2
        · cases j with
          | zero =>
              simp only [List.getElem?_cons_zero, Option.some.injEq] at h1
              simp only [List.getElem?_cons_succ] at h2
              subst h1
              have hret := decideAppend_retry_shape ci store A cfg cmd retries
                (store.readStream s (ci.eventStreamId cmd)) cmd' ev s rng
                next s' rng' rec0 hD
              have hf := decideAppend_stepRec_fields ci store A cfg cmd retries
                (store.readStream s (ci.eventStreamId cmd)) cmd' ev s rng
              rw [hD] at hf
              simp only [DecideStep.stepRec] at hf
              rcases hf with ⟨_, hfr, _, hfh⟩
              refine ⟨by simp [hfr], ⟨rng, by rw [hfr]; exact hret.2.1⟩,
                cmd', ev, hfh, ?_⟩
              rcases htr : (executeGo ci store A cfg n (retries + 1) s' rng'
                  next).trace with _ | ⟨a, tl⟩
              · rw [htr] at h2
                simp at h2
              · rw [htr] at h2
                simp only [List.getElem?_cons_zero, Option.some.injEq] at h2
                have hhd := executeGo_trace_head ci store A cfg n (retries + 1)
                  s' rng' next a tl htr
                rw [← h2, hhd.1, hret.1]
          | succ j' =>
              simp only [List.getElem?_cons_succ] at h1 h2
              have := ih (retries + 1) s' rng' next j' rec rec2 h1 h2
              refine ⟨by omega, this.2.1, this.2.2⟩

theorem executeGo_handle_error_result {E C S D σ : Type} (ci : CommandImpl E C D)
    (store : StoreModel E S D) (A : RngAlgo σ) (cfg : ExecuteConfig) :
    ∀ (fuel retries : Nat) (s : S) (rng : σ) (cmd : C) (j : Nat)
      (rec : AttemptRec E C D σ) (c : C) (ev : Option Nat) (e : D),
      (executeGo ci store A cfg fuel retries s rng cmd).trace[j]? = some rec →
      rec.handled = some (c, ev, Except.error e) →
      (executeGo ci store A cfg fuel retries s rng cmd).result =
        Except.error (Error.commandFailed (ci.errToString e) (retries + j + 1)
          cfg.maxRetries e) ∧
      (executeGo ci store A cfg fuel retries s rng cmd).trace.length = j + 1 ∧
      publishCount (executeGo ci store A cfg fuel retries s rng cmd).trace = j ∧
      handleCount (executeGo ci store A cfg fuel retries s rng cmd).trace = j + 1 := by
  intro fuel
  induction fuel with
  | zero =>
      intro retries s rng cmd j rec c ev e h1 hh
      simp [executeGo] at h1
  | succ n ih =>
      intro retries s rng cmd j rec c ev e h1 hh
      simp only [executeGo] at h1 ⊢
      rcases hR : readPhase ci store s cmd with e' | ⟨cmd', ev'⟩ <;>
        rw [hR] at h1 <;> dsimp only at h1 ⊢
      · cases j with
        | zero =>
            simp only [List.getElem?_cons_zero, Option.some.injEq] at h1
            subst h1
            simp at hh
        | succ j' =>
            simp at h1
      · rcases hD : decideAppend ci store A cfg cmd retries
            (store.readStream s (ci.eventStreamId cmd)) cmd' ev' s rng with
          ⟨res, s', rec0⟩ | ⟨next, s', rng', rec0⟩ <;>
          rw [hD] at h1 <;> dsimp only at h1 ⊢
        · cases j with
          | zero =>
              simp only [List.getElem?_cons_zero, Option.some.injEq] at h1
              subst h1
              have hf := decideAppend_stepRec_fields ci store A cfg cmd retries
                (store.readStream s (ci.eventStreamId cmd)) cmd' ev' s rng
              rw [hD] at hf
              simp only [DecideStep.stepRec] at hf
              rcases hf with ⟨_, _, _, hfh⟩
              rw [hfh] at hh
              simp only [Option.some.injEq, Prod.mk.injEq] at hh
              rcases hh with ⟨hc, hev, hhe⟩
              have hda := decideAppend_handle_error ci store A cfg cmd retries
                (store.readStream s (ci.eventStreamId cmd)) cmd' ev' s rng e hhe
              rw [hda] at hD
              simp only [DecideStep.done.injEq] at hD
              rcases hD with ⟨hres, _, hrec⟩
              subst hc
              refine ⟨by rw [← hres], rfl, ?_, ?_⟩
              · simp [publishCount, List.countP_cons, ← hrec]
              · simp [handleCount, List.countP_cons, ← hrec]
          | succ j' =>
              simp at h1
        · have hret := decideAppend_retry_shape ci store A cfg cmd retries
            (store.readStream s (ci.eventStreamId cmd)) cmd' ev' s rng
            next s' rng' rec0 hD
          have hf := decideAppend_stepRec_fields ci store A cfg cmd retries
            (store.readStream s (ci.eventStreamId cmd)) cmd' ev' s rng
          rw [hD] at hf
          simp only [DecideStep.stepRec] at hf
          rcases hf with ⟨_, _, _, hfh⟩
          cases j with
          | zero =>
              simp only [List.getElem?_cons_zero, Option.some.injEq] at h1
              subst h1
              rw [hfh] at hh
              simp only [Option.some.injEq, Prod.mk.injEq] at hh
              rcases hret.2.2 with ⟨evs, hok, _, _⟩
              rw [hok] at hh
              simp at hh
          | succ j' =>
              simp only [List.getElem?_cons_succ] at h1
              have := ih (retries + 1) s' rng' next j' rec c ev e h1 hh
              rcases hret.2.2 with ⟨evs, hok, hne, hpub⟩
              refine ⟨?_, ?_, ?_, ?_⟩
              · rw [this.1]
                have : retries + 1 + j' + 1 = retries + (j' + 1) + 1 := by omega
                rw [this]
              · simp [this.2.1]
              · simp [publishCount, List.countP_cons, hpub]
                have h3 := this.2.2.1
                simp [publishCount] at h3
                omega
              · simp [handleCount, List.countP_cons, hfh]
                have h4 := this.2.2.2
                simp [handleCount] at h4
                omega

theorem executeGo_exhaust {E C S D σ : Type} (ci : CommandImpl E C D)
    (store : StoreModel E S D) (A : RngAlgo σ) (cfg : ExecuteConfig)
    (HC : readsClean store) (HN : handleNonempty ci) (HM : alwaysMismatch store)
    (HS : streamIdStable ci) :
    ∀ (fuel retries : Nat) (s : S) (rng : σ) (cmd : C),
      (executeGo ci store A cfg fuel retries s rng cmd).result =
        Except.error (Error.maxRetriesExceeded (ci.eventStreamId cmd).render
          cfg.maxRetries) ∧
      publishCount (executeGo ci store A cfg fuel retries s rng cmd).trace = fuel := by
  intro fuel
  induction fuel with
  | zero => intro retries s rng cmd; exact ⟨rfl, rfl⟩
  | succ n ih =>
      intro retries s rng cmd
      have hrp : ∃ cmd' ev, readPhase ci store s cmd = Except.ok (cmd', ev) ∧
          ci.eventStreamId cmd' = ci.eventStreamId cmd := by
        rcases HC s (ci.eventStreamId cmd) with hread | ⟨pairs, hread⟩
        · exact ⟨cmd, none, readPhase_of_rnf ci store s cmd hread, rfl⟩
        · refine ⟨pairs.foldl (fun a p => ci.applyEvent a p.1) cmd,
            pairs.foldl (fun _ p => some p.2) none, ?_,
            eventStreamId_foldl HS pairs cmd⟩
          rw [readPhase_of_read_ok ci store s cmd _ hread, drainStream_map_ok]
      rcases hrp with ⟨cmd', ev, hR, hid⟩
      rcases HN cmd' with ⟨evs, hok, hne⟩
      have hm := HM s (ci.eventStreamId cmd') evs (appendOptions ci cmd' ev)
      rcases resultIsVersionMismatch_shape _ hm with ⟨st', exv, ac, src, hp⟩
      have hD := decideAppend_publish_mismatch ci store A cfg cmd retries
        (store.readStream s (ci.eventStreamId cmd)) cmd' ev s rng evs st' exv ac
        src hok hne hp
      simp only [executeGo]
      rw [hR]
      dsimp only
      rw [hD]
      dsimp only
      constructor
      · rw [(ih (retries + 1)
          ((store.publish s (ci.eventStreamId cmd') evs
            (appendOptions ci cmd' ev)).2)
          ((RetryDelay.calculateDelay A cfg.retryDelay retries rng).2)
          (ci.markRetry cmd')).1, HS.2 cmd', hid]
      · have h2 := (ih (retries + 1)
          ((store.publish s (ci.eventStreamId cmd') evs
            (appendOptions ci cmd' ev)).2)
          ((RetryDelay.calculateDelay A cfg.retryDelay retries rng).2)
          (ci.markRetry cmd')).2
        simp only [publishCount] at h2 ⊢
        rw [List.countP_cons]
        simp [h2]

/-! ## Claims -/

/-- C7 counterexample: the claim says `exp = base_delay_ms * 2^r` is
computed "using saturating multiplication".  The source
(src/delay.rs line 48) uses plain `u64` multiplication, which wraps
modulo `2^64` under release-mode overflow semantics (and panics under
debug assertions).  At `base_delay_ms = 2^63`, `max_delay_ms = 5`,
`r = 1`, the code's pre-jitter cap is `min(2^64 mod 2^64, 5) = 0`, while
the claim's saturating computation gives `min(u64::MAX, 5) = 5`. -/
theorem calculate_delay_not_saturating :
    RetryDelay.cappedDelay { baseDelayMs := 2 ^ 63, maxDelayMs := 5 } 1 ≠
      cappedDelaySaturating { baseDelayMs := 2 ^ 63, maxDelayMs := 5 } 1 := by
  decide

/-- C7 (amended): for every `base_delay_ms > 0`, `max_delay_ms > 0` and
retry count `r ≥ 0`, `calculate_delay(r)` computes
`exp = base_delay_ms * 2^r` with wrapping (modulo `2^64`) multiplication,
caps it as `min(exp, max_delay_ms)`, and returns a value drawn from the
inclusive range `[0, capped]` (for any generator whose `gen_range`
honours its range). -/
theorem calculate_delay_bounded {σ : Type} (A : RngAlgo σ) (rd : RetryDelay)
    (r : Nat) (st : σ) (hA : rngOk A) (hbase : 0 < rd.baseDelayMs)
    (hmax : 0 < rd.maxDelayMs) :
    (RetryDelay.calculateDelay A rd r st).1 ≤
      min (rd.baseDelayMs * 2 ^ r % U64MOD) rd.maxDelayMs := by
  have h2 : rd.cappedDelay r = min (rd.baseDelayMs * 2 ^ r % U64MOD) rd.maxDelayMs := by
    unfold RetryDelay.cappedDelay RetryDelay.expDelay pow2u64
    congr 1
    conv_rhs => rw [Nat.mul_mod]
    conv_lhs => rw [Nat.mul_mod]
    rw [Nat.mod_mod]
  rw [← h2]
  exact hA st (rd.cappedDelay r)

/-- C7 witness: the bound at a concrete generator and configuration. -/
theorem calculate_delay_bounded_witness :
    rngOk algN ∧ 0 < (100 : Nat) ∧ 0 < (30000 : Nat) ∧
    (RetryDelay.calculateDelay algN RetryDelay.defaultConfig 3 42).1 ≤
      min (100 * 2 ^ 3 % U64MOD) 30000 := by
  have hA : rngOk algN := fun st hi => Nat.min_le_right st hi
  exact ⟨hA, by decide, by decide,
    calculate_delay_bounded algN RetryDelay.defaultConfig 3 42 hA
      (by decide) (by decide)⟩

/-- C9: `Kurrent::publish` ignores its `expected_version` argument (the
request it issues is the same for every value of that argument), always
uses `AppendToStreamOptions::default()` (no version precondition), and
targets the hardcoded stream `"test-stream"` when the event list is
non-empty and `""` when it is empty. -/
theorem kurrent_publish_ignores_expected_version {E : Type} (events : List E)
    (v v' : Option Nat) :
    kurrentPublishRequest events v = kurrentPublishRequest events v' ∧
    (kurrentPublishRequest events v).options = appendToStreamOptionsDefault ∧
    (kurrentPublishRequest events v).stream =
      (if events.isEmpty then "" else "test-stream") := by
  refine ⟨rfl, rfl, ?_⟩
  cases events <;> rfl

/-- C10: the jitter generator is thread-local and seeded with the
constant 0 (`SmallRng::seed_from_u64(0)`), so — whatever the generator
algorithm is — two threads that make equal sequences of `calculate_delay`
calls obtain exactly equal delay sequences: each thread's `runDelays`
starts from `threadRngInit`, the state seeded with the constant 0, and
advances deterministically. -/
theorem jitter_deterministic_across_threads {σ : Type} (A : RngAlgo σ)
    (calls1 calls2 : List (RetryDelay × Nat)) (h : calls1 = calls2) :
    runDelays A calls1 = runDelays A calls2 := by
  rw [h]

/-- C10 witness: two threads making the same two calls with the concrete
generator obtain equal delays. -/
theorem jitter_deterministic_across_threads_witness :
    runDelays algN [(RetryDelay.defaultConfig, 0), (RetryDelay.defaultConfig, 1)] =
      runDelays algN [(RetryDelay.defaultConfig, 0), (RetryDelay.defaultConfig, 1)] :=
  jitter_deterministic_across_threads algN _ _ rfl

/-- C1 counterexample: the claim quantifies over every command and store
and assumes only that every publish call returns `VersionMismatch`.  For
the command whose `handle` returns an empty event list, no publish is
ever attempted (the assumption holds vacuously of the always-mismatching
store), and `execute` returns `Ok(())` after 0 publish attempts instead
of `MaxRetriesExceeded` after `max_retries + 1` of them. -/
theorem execute_exhaustion_claim_counterexample :
    alwaysMismatch stVM ∧
    (execute ciEmpty stVM algN cfg2 0 0 0).result = Except.ok () ∧
    publishCount (execute ciEmpty stVM algN cfg2 0 0 0).trace = 0 :=
  ⟨fun _ _ _ _ => rfl, rfl, rfl⟩

/-- C1 (amended): for every command, store and config with
`max_retries = n`, if on every attempt the read phase succeeds cleanly
(or reports the absorbed not-found), `handle` returns a non-empty event
list, every publish call returns `VersionMismatch`, and the command's
`event_stream_id` is stable under `apply` and `mark_retry`, then
`execute` returns `MaxRetriesExceeded` with `stream` equal to the
command's `event_stream_id` rendered as a string and `max_retries = n`,
after exactly `n + 1` publish attempts (the initial try plus `n`
retries). -/
theorem execute_always_mismatch_exhausts_budget {E C S D σ : Type}
    (ci : CommandImpl E C D) (store : StoreModel E S D) (A : RngAlgo σ)
    (cfg : ExecuteConfig) (s : S) (rng : σ) (cmd : C)
    (HC : readsClean store) (HN : handleNonempty ci) (HM : alwaysMismatch store)
    (HS : streamIdStable ci) :
    (execute ci store A cfg s rng cmd).result =
      Except.error (Error.maxRetriesExceeded (ci.eventStreamId cmd).render
        cfg.maxRetries) ∧
    publishCount (execute ci store A cfg s rng cmd).trace = cfg.maxRetries + 1 :=
  executeGo_exhaust ci store A cfg HC HN HM HS (cfg.maxRetries + 1) 0 s rng cmd

/-- C1 witness: with `max_retries = 2` and an always-mismatching store,
`execute` fails with `MaxRetriesExceeded{ stream: "d", max_retries: 2 }`
after exactly 3 publish attempts. -/
theorem execute_always_mismatch_exhausts_budget_witness :
    readsClean stVM ∧ handleNonempty ciOne ∧ alwaysMismatch stVM ∧
    streamIdStable ciOne ∧
    (execute ciOne stVM algN cfg2 0 0 0).result =
      Except.error (Error.maxRetriesExceeded "d" 2) ∧
    publishCount (execute ciOne stVM algN cfg2 0 0 0).trace = 3 := by
  have h1 : readsClean stVM := fun _ _ => Or.inr ⟨[], rfl⟩
  have h2 : handleNonempty ciOne := fun _ => ⟨[()], rfl, by simp⟩
  have h3 : alwaysMismatch stVM := fun _ _ _ _ => rfl
  have h4 : streamIdStable ciOne := ⟨fun _ _ => rfl, fun _ => rfl⟩
  have h5 := execute_always_mismatch_exhausts_budget ciOne stVM algN cfg2
    0 0 0 h1 h2 h3 h4
  exact ⟨h1, h2, h3, h4, h5.1, h5.2⟩

/-- C2: on every attempt whose `read_stream` call succeeded (the attempt
record carries an `Ok` read result) and on which `handle` was called, the
command handed to `handle` is exactly the fold of the drawn
`(event, version)` pairs, in stream order, into the attempt's starting
command via `cmd.apply(event)`; `expected_version` is the version of the
last pair drawn (`none` if the stream yielded nothing); and the recorded
`handle` outcome is `handle` of that folded command — i.e. `handle` runs
only after the fold of the full stream completes. -/
theorem execute_fold_before_handle {E C S D σ : Type} (ci : CommandImpl E C D)
    (store : StoreModel E S D) (A : RngAlgo σ) (cfg : ExecuteConfig)
    (s : S) (rng : σ) (cmd : C) (rec : AttemptRec E C D σ)
    (items : List (Except (Error D) (E × Nat))) (c : C) (ev : Option Nat)
    (hr : Except D (List E))
    (hmem : rec ∈ (execute ci store A cfg s rng cmd).trace)
    (hread : rec.readResult = Except.ok items)
    (hhand : rec.handled = some (c, ev, hr)) :
    ∃ pairs : List (E × Nat), items = pairs.map Except.ok ∧
      c = pairs.foldl (fun a p => ci.applyEvent a p.1) rec.start ∧
      ev = (pairs.map Prod.snd).getLast? ∧
      hr = ci.handle c := by
  refine @executeGo_trace_mem_rec E C S D σ ci store A cfg
    (fun rec => ∀ items c ev hr, rec.readResult = Except.ok items →
      rec.handled = some (c, ev, hr) →
      ∃ pairs : List (E × Nat), items = pairs.map Except.ok ∧
        c = pairs.foldl (fun a p => ci.applyEvent a p.1) rec.start ∧
        ev = (pairs.map Prod.snd).getLast? ∧
        hr = ci.handle c)
    ?_ ?_ (cfg.maxRetries + 1) 0 s rng cmd rec hmem items c ev hr hread hhand
  · intro retries s0 cmd0 items0 c0 ev0 hr0 _ hcontra
    simp at hcontra
  · intro retries s0 rng0 cmd0 cmd0' ev0 hR items0 c0 ev1 hr0 hread0 hhand0
    have hf := decideAppend_stepRec_fields ci store A cfg cmd0 retries
      (store.readStream s0 (ci.eventStreamId cmd0)) cmd0' ev0 s0 rng0
    rcases hf with ⟨hfs, _, hfr, hfh⟩
    rw [hfh] at hhand0
    simp only [Option.some.injEq, Prod.mk.injEq] at hhand0
    rcases hhand0 with ⟨hc, hev, hhr⟩
    rcases readPhase_ok_shape ci store s0 cmd0 cmd0' ev0 hR with
      ⟨hrs, _, _⟩ | ⟨items', hrs, hdrain⟩
    · rw [hfr, hrs] at hread0
      simp at hread0
    · rw [hfr, hrs] at hread0
      simp only [Except.ok.injEq] at hread0
      subst hread0
      rcases drainStream_ok_shape ci items' cmd0 none cmd0' ev0 hdrain with
        ⟨pairs, hpi, hpc, hpe⟩
      refine ⟨pairs, hpi, ?_, ?_, ?_⟩
      · rw [hfs, ← hc, hpc]
      · rw [← hev, hpe, foldl_snd_getLast]
      · rw [← hhr, ← hc]

/-- C2 witness: against a stream holding two events at versions 0 and 1,
the recorded `handle` call sees the command folded over both events
(state counter 2) and `expected_version = Some 1`. -/
theorem execute_fold_before_handle_witness :
    ∃ pairs : List (Unit × Nat),
      ([Except.ok ((), 0), Except.ok ((), 1)] :
          List (Except (Error Unit) (Unit × Nat))) = pairs.map Except.ok ∧
      (2 : Nat) = pairs.foldl (fun a p => ciOne.applyEvent a p.1) 0 ∧
      (some 1 : Option Nat) = (pairs.map Prod.snd).getLast? ∧
      Except.ok [()] = ciOne.handle 2 :=
  execute_fold_before_handle ciOne stTwo algN cfg2 0 0 0
    { start := 0, retries := 0
      readResult := Except.ok [Except.ok ((), 0), Except.ok ((), 1)]
      handled := some (2, some 1, Except.ok [()])
      publishCall := some ([()],
        appendToStreamOptionsDefault.withExpectedRevision (ExpectedRevision.exact 1),
        Except.ok ())
      sleep := none }
    [Except.ok ((), 0), Except.ok ((), 1)] 2 (some 1) (Except.ok [()])
    (by decide) rfl rfl

/-- C3: whenever the engine publishes (the attempt record carries a
publish call), `handle` had returned exactly that non-empty event list,
and the append options are: `Exact(v)` when
`cmd.override_expected_version()` is `Some v` (regardless of what the
read phase produced); otherwise `Exact(v)` when the read phase ended with
`expected_version = Some v`; otherwise the store default
(`AppendToStreamOptions::default()`, no precondition). -/
theorem execute_publish_precondition {E C S D σ : Type} (ci : CommandImpl E C D)
    (store : StoreModel E S D) (A : RngAlgo σ) (cfg : ExecuteConfig)
    (s : S) (rng : σ) (cmd : C) (rec : AttemptRec E C D σ)
    (evs : List E) (opts : AppendToStreamOptions) (pr : Except (Error D) Unit)
    (hmem : rec ∈ (execute ci store A cfg s rng cmd).trace)
    (hpub : rec.publishCall = some (evs, opts, pr)) :
    ∃ c ev, rec.handled = some (c, ev, Except.ok evs) ∧ evs ≠ [] ∧
      (∀ v, ci.overrideExpectedVersion c = some v →
        opts = appendToStreamOptionsDefault.withExpectedRevision
          (ExpectedRevision.exact v)) ∧
      (ci.overrideExpectedVersion c = none → ∀ v, ev = some v →
        opts = appendToStreamOptionsDefault.withExpectedRevision
          (ExpectedRevision.exact v)) ∧
      (ci.overrideExpectedVersion c = none → ev = none →
        opts = appendToStreamOptionsDefault) := by
  refine @executeGo_trace_mem_rec E C S D σ ci store A cfg
    (fun rec => ∀ evs opts pr, rec.publishCall = some (evs, opts, pr) →
      ∃ c ev, rec.handled = some (c, ev, Except.ok evs) ∧ evs ≠ [] ∧
        (∀ v, ci.overrideExpectedVersion c = some v →
          opts = appendToStreamOptionsDefault.withExpectedRevision
            (ExpectedRevision.exact v)) ∧
        (ci.overrideExpectedVersion c = none → ∀ v, ev = some v →
          opts = appendToStreamOptionsDefault.withExpectedRevision
            (ExpectedRevision.exact v)) ∧
        (ci.overrideExpectedVersion c = none → ev = none →
          opts = appendToStreamOptionsDefault))
    ?_ ?_ (cfg.maxRetries + 1) 0 s rng cmd rec hmem evs opts pr hpub
  · intro retries s0 cmd0 evs0 opts0 pr0 hcontra
    simp at hcontra
  · intro retries s0 rng0 cmd0 cmd0' ev0 hR evs0 opts0 pr0 hpub0
    have hshape := decideAppend_publishCall_shape ci store A cfg cmd0 retries
      (store.readStream s0 (ci.eventStreamId cmd0)) cmd0' ev0 s0 rng0
      evs0 opts0 pr0 hpub0
    rcases hshape with ⟨hok, hne, hopts, _⟩
    have hf := decideAppend_stepRec_fields ci store A cfg cmd0 retries
      (store.readStream s0 (ci.eventStreamId cmd0)) cmd0' ev0 s0 rng0
    refine ⟨cmd0', ev0, by rw [hf.2.2.2, hok], hne, ?_, ?_, ?_⟩
    · intro v hov
      rw [hopts]
      simp [appendOptions, hov]
    · intro hov v hev
      rw [hopts]
      simp [appendOptions, hov, hev]
    · intro hov hev
      rw [hopts]
      simp [appendOptions, hov, hev]

/-- C3 witness: a command with `override_expected_version = Some 7`
publishing against a stream read up to version 1 gets `Exact(7)`. -/
theorem execute_publish_precondition_witness :
    ∃ c ev, (some (2, some 1, Except.ok [()]) :
        Option (Nat × Option Nat × Except Unit (List Unit))) =
        some (c, ev, Except.ok [()]) ∧ ([()] : List Unit) ≠ [] ∧
      (∀ v, ciOverride.overrideExpectedVersion c = some v →
        appendToStreamOptionsDefault.withExpectedRevision (ExpectedRevision.exact 7)
          = appendToStreamOptionsDefault.withExpectedRevision
            (ExpectedRevision.exact v)) ∧
      (ciOverride.overrideExpectedVersion c = none → ∀ v, ev = some v →
        appendToStreamOptionsDefault.withExpectedRevision (ExpectedRevision.exact 7)
          = appendToStreamOptionsDefault.withExpectedRevision
            (ExpectedRevision.exact v)) ∧
      (ciOverride.overrideExpectedVersion c = none → ev = none →
        appendToStreamOptionsDefault.withExpectedRevision (ExpectedRevision.exact 7)
          = appendToStreamOptionsDefault) :=
  execute_publish_precondition ciOverride stTwo algN cfg2 0 0 0
    { start := 0, retries := 0
      readResult := Except.ok [Except.ok ((), 0), Except.ok ((), 1)]
      handled := some (2, some 1, Except.ok [()])
      publishCall := some ([()],
        appendToStreamOptionsDefault.withExpectedRevision (ExpectedRevision.exact 7),
        Except.ok ())
      sleep := none }
    [()] (appendToStreamOptionsDefault.withExpectedRevision (ExpectedRevision.exact 7))
    (Except.ok ()) (by decide) rfl

/-- C4 counterexample: a store whose `read_stream` yields the dedicated
`Error::EventStoreStreamNotFound` variant (src/error.rs lines 23-24).
`execute` does not treat it as an empty stream: it returns the error
immediately and `handle` is never called, because the engine's
absorbed shape (src/store/mod.rs line 136) is
`Error::EventStoreOther(eventstore::Error::ResourceNotFound)`, not
`Error::EventStoreStreamNotFound`. -/
theorem execute_stream_not_found_variant_fatal :
    (execute ciOne stSNF algN cfg2 0 0 0).result =
      Except.error (Error.eventStoreStreamNotFound sidD) ∧
    handleCount (execute ciOne stSNF algN cfg2 0 0 0).trace = 0 :=
  ⟨rfl, rfl⟩

/-- C4 (amended): if `read_stream` yields
`Error::EventStoreOther(eventstore::Error::ResourceNotFound)` — the raw
store's signal for a never-written stream — `execute` treats it as an
empty stream: `expected_version` stays `None` and execution proceeds to
the decide phase on the unchanged command.  Every other read error,
including the taxonomy's dedicated `Error::EventStoreStreamNotFound`
variant, is returned immediately without retry, with `handle` never
called on that attempt. -/
theorem execute_read_error_dispatch {E C S D σ : Type} (ci : CommandImpl E C D)
    (store : StoreModel E S D) (A : RngAlgo σ) (cfg : ExecuteConfig)
    (s : S) (rng : σ) (cmd : C) (e : Error D)
    (hread : store.readStream s (ci.eventStreamId cmd) = Except.error e) :
    (e ≠ Error.eventStoreOther EsError.resourceNotFound →
      execute ci store A cfg s rng cmd =
        { result := Except.error e, store := s, rng := rng
          trace := [{ start := cmd, retries := 0, readResult := Except.error e
                      handled := none, publishCall := none, sleep := none }] }) ∧
    (e = Error.eventStoreOther EsError.resourceNotFound →
      ∃ rec tl, (execute ci store A cfg s rng cmd).trace = rec :: tl ∧
        rec.handled = some (cmd, none, ci.handle cmd)) := by
  constructor
  · intro hne
    have hrp := readPhase_of_read_err ci store s cmd e hread hne
    simp only [execute, executeGo]
    rw [hrp]
    dsimp only
    rw [hread]
  · intro heq
    subst heq
    have hrp := readPhase_of_rnf ci store s cmd hread
    simp only [execute, executeGo]
    rw [hrp]
    dsimp only
    rcases hD : decideAppend ci store A cfg cmd 0
        (store.readStream s (ci.eventStreamId cmd)) cmd none s rng with
      ⟨res, s', rec0⟩ | ⟨next, s', rng', rec0⟩ <;> dsimp only <;>
      have hf := decideAppend_stepRec_fields ci store A cfg cmd 0
        (store.readStream s (ci.eventStreamId cmd)) cmd none s rng <;>
      rw [hD] at hf <;> simp only [DecideStep.stepRec] at hf
    · exact ⟨rec0, [], rfl, hf.2.2.2⟩
    · exact ⟨rec0, _, rfl, hf.2.2.2⟩

/-- C4 witness: the dedicated `EventStoreStreamNotFound` variant is
returned as-is (first conjunct, via a store failing with it), while the
raw `ResourceNotFound` is absorbed and the decide phase is reached with
`expected_version = None` (second conjunct, via a store failing with it). -/
theorem execute_read_error_dispatch_witness :
    execute ciOne stSNF algN cfg2 0 0 0 =
      { result := Except.error (Error.eventStoreStreamNotFound sidD)
        store := 0, rng := 0
        trace := [{ start := 0, retries := 0
                    readResult := Except.error (Error.eventStoreStreamNotFound sidD)
                    handled := none, publishCall := none, sleep := none }] } ∧
    ∃ rec tl, (execute ciOne stRNF algN cfg2 0 0 0).trace = rec :: tl ∧
      rec.handled = some (0, none, ciOne.handle 0) :=
  ⟨(execute_read_error_dispatch ciOne stSNF algN cfg2 0 0 0 _ rfl).1 (by decide),
   (execute_read_error_dispatch ciOne stRNF algN cfg2 0 0 0 _ rfl).2 rfl⟩

/-- C5: if `handle` returns an error `e` on the attempt whose 0-based
counter is `j` (the attempt record at trace position `j` carries a
`handle` error), `execute` immediately returns `CommandFailed` with
`message = e.to_string()`, `attempt = j + 1`,
`max_attempts = config.max_retries` and `source = e`, that attempt is the
last one (no retry); in particular, when the first attempt's `handle`
errs, `execute` made exactly one `handle` call and zero publish calls. -/
theorem execute_handle_error_fails_fast {E C S D σ : Type}
    (ci : CommandImpl E C D) (store : StoreModel E S D) (A : RngAlgo σ)
    (cfg : ExecuteConfig) (s : S) (rng : σ) (cmd : C) (j : Nat)
    (rec : AttemptRec E C D σ) (c : C) (ev : Option Nat) (e : D)
    (hj : (execute ci store A cfg s rng cmd).trace[j]? = some rec)
    (hh : rec.handled = some (c, ev, Except.error e)) :
    (execute ci store A cfg s rng cmd).result =
      Except.error (Error.commandFailed (ci.errToString e) (j + 1)
        cfg.maxRetries e) ∧
    (execute ci store A cfg s rng cmd).trace.length = j + 1 ∧
    (j = 0 → handleCount (execute ci store A cfg s rng cmd).trace = 1 ∧
      publishCount (execute ci store A cfg s rng cmd).trace = 0) := by
  have h := executeGo_handle_error_result ci store A cfg (cfg.maxRetries + 1)
    0 s rng cmd j rec c ev e hj hh
  have h0 : 0 + j + 1 = j + 1 := by omega
  rw [h0] at h
  refine ⟨h.1, h.2.1, fun hj0 => ?_⟩
  subst hj0
  exact ⟨h.2.2.2, h.2.2.1⟩

/-- C5 witness: a command whose `handle` fails on the first attempt gives
`CommandFailed{ message: "boom", attempt: 1, max_attempts: 2 }` with one
`handle` call and zero publish calls. -/
theorem execute_handle_error_fails_fast_witness :
    (execute ciFail stOk algN cfg2 0 0 0).result =
      Except.error (Error.commandFailed "boom" 1 2 ()) ∧
    (execute ciFail stOk algN cfg2 0 0 0).trace.length = 0 + 1 ∧
    ((0 : Nat) = 0 → handleCount (execute ciFail stOk algN cfg2 0 0 0).trace = 1 ∧
      publishCount (execute ciFail stOk algN cfg2 0 0 0).trace = 0) :=
  execute_handle_error_fails_fast ciFail stOk algN cfg2 0 0 0 0
    { start := 0, retries := 0, readResult := Except.ok []
      handled := some (0, none, Except.error ())
      publishCall := none, sleep := none }
    0 none () (by decide) rfl

/-- C6: for every command whose `handle` always returns an empty event
list, provided every read succeeds cleanly (or reports the absorbed
not-found), `execute` returns `Ok(())` without ever calling `publish`,
and the store state is unchanged by the call. -/
theorem execute_empty_events_noop {E C S D σ : Type} (ci : CommandImpl E C D)
    (store : StoreModel E S D) (A : RngAlgo σ) (cfg : ExecuteConfig)
    (s : S) (rng : σ) (cmd : C)
    (HC : readsClean store) (HE : ∀ c, ci.handle c = Except.ok []) :
    (execute ci store A cfg s rng cmd).result = Except.ok () ∧
    (execute ci store A cfg s rng cmd).store = s ∧
    publishCount (execute ci store A cfg s rng cmd).trace = 0 := by
  have hrp : ∃ cmd' ev, readPhase ci store s cmd = Except.ok (cmd', ev) := by
    rcases HC s (ci.eventStreamId cmd) with hread | ⟨pairs, hread⟩
    · exact ⟨cmd, none, readPhase_of_rnf ci store s cmd hread⟩
    · refine ⟨pairs.foldl (fun a p => ci.applyEvent a p.1) cmd,
        pairs.foldl (fun _ p => some p.2) none, ?_⟩
      rw [readPhase_of_read_ok ci store s cmd _ hread, drainStream_map_ok]
  rcases hrp with ⟨cmd', ev, hR⟩
  have hD := decideAppend_handle_nil ci store A cfg cmd 0
    (store.readStream s (ci.eventStreamId cmd)) cmd' ev s rng (HE cmd')
  simp only [execute, executeGo]
  rw [hR]
  dsimp only
  rw [hD]
  exact ⟨rfl, rfl, rfl⟩

/-- C6 witness: a no-op command against a store holding two events
returns `Ok` with the store state unchanged and no publish calls. -/
theorem execute_empty_events_noop_witness :
    readsClean stTwo ∧
    (execute ciEmpty stTwo algN cfg2 7 0 0).result = Except.ok () ∧
    (execute ciEmpty stTwo algN cfg2 7 0 0).store = 7 ∧
    publishCount (execute ciEmpty stTwo algN cfg2 7 0 0).trace = 0 := by
  have h1 : readsClean stTwo := fun _ _ => Or.inr ⟨[((), 0), ((), 1)], rfl⟩
  have h2 := execute_empty_events_noop ciEmpty stTwo algN cfg2 7 0 0 h1
    (fun _ => rfl)
  exact ⟨h1, h2.1, h2.2.1, h2.2.2⟩

/-- C8: whenever attempt `j` is followed by another attempt (positions
`j` and `j + 1` both exist in the trace, i.e. the `(j + 1)`-th retry
happened), attempt `j` ran at `retries = j` and slept for a delay
computed by `calculate_delay` with retry count `j` (the counter before it
is incremented) from the generator state current at that point; and the
next attempt's starting command is `cmd.mark_retry()` applied to the
(folded) command that received the `VersionMismatch` on attempt `j`.
With `i = j + 1`, this is the claim: the sleep before the `i`-th retry
uses retry count `i - 1`. -/
theorem execute_backoff_and_mark_retry {E C S D σ : Type}
    (ci : CommandImpl E C D) (store : StoreModel E S D) (A : RngAlgo σ)
    (cfg : ExecuteConfig) (s : S) (rng : σ) (cmd : C) (j : Nat)
    (rec rec2 : AttemptRec E C D σ)
    (hj : (execute ci store A cfg s rng cmd).trace[j]? = some rec)
    (hj2 : (execute ci store A cfg s rng cmd).trace[j + 1]? = some rec2) :
    rec.retries = j ∧
    (∃ st, rec.sleep = some (j, st,
      (RetryDelay.calculateDelay A cfg.retryDelay j st).1)) ∧
    ∃ c ev, rec.handled = some (c, ev, ci.handle c) ∧
      rec2.start = ci.markRetry c := by
  have h := executeGo_consecutive ci store A cfg (cfg.maxRetries + 1) 0 s rng
    cmd j rec rec2 hj hj2
  have h0 : rec.retries = j := by
    have := h.1
    omega
  rw [h0] at h
  exact ⟨h0, h.2.1, h.2.2⟩

/-- C8 witness: in the always-mismatching run, attempt 0 sleeps with
retry count 0 and attempt 1 starts from `mark_retry` of the command that
received the mismatch. -/
theorem execute_backoff_and_mark_retry_witness :
    ({ start := 0, retries := 0, readResult := Except.ok []
       handled := some (0, none, Except.ok [()])
       publishCall := some ([()], appendToStreamOptionsDefault,
         Except.error (Error.eventStoreVersionMismatch sidD (some 0) (some 1)
           (EsError.other "wrong expected version")))
       sleep := some (0, 0, 0) } : AttemptRec Unit Nat Unit Nat).retries = 0 ∧
    (∃ st, (some (0, 0, 0) : Option (Nat × Nat × Nat)) = some (0, st,
      (RetryDelay.calculateDelay algN cfg2.retryDelay 0 st).1)) ∧
    ∃ c ev, (some (0, none, Except.ok [()]) :
        Option (Nat × Option Nat × Except Unit (List Unit))) =
        some (c, ev, ciOne.handle c) ∧
      ({ start := 0, retries := 1, readResult := Except.ok []
         handled := some (0, none, Except.ok [()])
         publishCall := some ([()], appendToStreamOptionsDefault,
           Except.error (Error.eventStoreVersionMismatch sidD (some 0) (some 1)
             (EsError.other "wrong expected version")))
         sleep := some (1, 1, 1) } : AttemptRec Unit Nat Unit Nat).start =
        ciOne.markRetry c := by
  have h := execute_backoff_and_mark_retry ciOne stVM algN cfg2 0 0 0 0
    { start := 0, retries := 0, readResult := Except.ok []
      handled := some (0, none, Except.ok [()])
      publishCall := some ([()], appendToStreamOptionsDefault,
        Except.error (Error.eventStoreVersionMismatch sidD (some 0) (some 1)
          (EsError.other "wrong expected version")))
      sleep := some (0, 0, 0) }
    { start := 0, retries := 1, readResult := Except.ok []
      handled := some (0, none, Except.ok [()])
      publishCall := some ([()], appendToStreamOptionsDefault,
        Except.error (Error.eventStoreVersionMismatch sidD (some 0) (some 1)
          (EsError.other "wrong expected version")))
      sleep := some (1, 1, 1) }
    (by decide) (by decide)
  exact h
